import Mathlib

/-!
Shallow embedding of `basket_promo_engine/api/promo.py` (the active, uncommented
code of the module) and verification of the specification's claims about it.

Modelling conventions:
* Python floats (`flt`) are modelled as rationals `ℚ`; `flt` of a missing/None
  value is `0`, matching `frappe.utils.flt`.
* Python `None`-able strings are modelled as `String`, with `""` standing for
  `None` (the code only ever uses them through `or ""` / truthiness, which
  identifies the two).
* Python dictionaries (insertion ordered) are modelled as association lists
  with in-place update and append-on-new-key, which preserves exactly the
  iteration order Python guarantees.
* `list.sort(key=...)` is a stable ascending sort; any two stable ascending
  sorts agree, so it is modelled by `List.insertionSort` (which is stable) on
  the corresponding `≤` relation of the key tuples.
* Database / framework collaborators (`frappe.get_all`, `frappe.db.get_value`,
  `calculate_taxes_and_totals`) are an explicit environment `Env` of response
  functions; the engine is a pure function of the document and this
  environment.  `calculate_taxes_and_totals` does not touch the fields of the
  line rows modelled here; only the fact that it was invoked is recorded.
-/

namespace BasketPromo

/-- `frappe.utils.flt` applied to a possibly missing numeric value:
missing/None becomes `0`. -/
def flt (x : Option ℚ) : ℚ := x.getD 0

/-- Python `str.strip()`: remove leading and trailing whitespace. -/
def pyStrip (s : String) : String :=
  String.mk (((s.data.dropWhile Char.isWhitespace).reverse.dropWhile
    Char.isWhitespace).reverse)

/-- Python `s.startswith(pre)`. -/
def startsWithB (pre s : String) : Bool := pre.data.isPrefixOf s.data

/-- Python `pat in s` (substring containment). -/
def containsB (s pat : String) : Bool :=
  s.data.tails.any (fun t => pat.data.isPrefixOf t)

/-- `PROMO_TAG = "BASKET_PROMO"` from the source. -/
def PROMO_TAG : String := "BASKET_PROMO"

/-- One document line (`doc.items` row).  Fields the engine reads or writes;
`stock_qty` is `0` when the attribute is absent (`getattr(row, "stock_qty", 0)`),
`delivery_date` is `none` for a missing/None date. -/
structure Row where
  item_code : String := ""
  description : String := ""
  qty : ℚ := 0
  stock_qty : ℚ := 0
  warehouse : String := ""
  uom : String := ""
  conversion_factor : ℚ := 0
  delivery_date : Option String := none
  item_name : String := ""
  rate : ℚ := 0
  price_list_rate : ℚ := 0
  amount : ℚ := 0
deriving DecidableEq

/-- The sales document as the engine sees it. -/
structure Doc where
  docstatus : Int := 0
  is_return : Bool := false
  items : List Row := []
  customer_group : String := ""
  company : String := ""
  delivery_date : Option String := none
deriving DecidableEq

/-- A `Basket Promo Slab` child row as returned by `frappe.get_all`
(fields may be None, hence `Option`). -/
structure Slab where
  min_qty : Option ℚ := none
  max_qty : Option ℚ := none
  free_qty : Option ℚ := none
deriving DecidableEq

/-- A `Basket Promo Rule` row as returned by the rule query
(`name, company, priority, free_item_policy, fixed_free_item_code,
customer_group`). -/
structure RuleRow where
  name : String := ""
  company : String := ""
  priority : Option Int := none
  free_item_policy : String := ""
  fixed_free_item_code : String := ""
  customer_group : String := ""
deriving DecidableEq

/-- The hydrated rule dictionary `_get_matching_rule` returns. -/
structure Rule where
  name : String
  company : String
  priority : Int
  free_item_policy : String
  fixed_free_item_code : String
  eligible_items : List String
  slabs : List Slab
deriving DecidableEq

/-- The database / framework collaborators, as response functions:
`ancestors g` is the self-first ancestor chain the nested-set query yields for
customer group `g` (empty when the group is unknown), `rulesFor path` is the
enabled-rule query filtered by `customer_group in path`, `eligibleItemsOf` and
`slabsOf` are the child-table fetches for a rule name (slabs ordered by
`min_qty asc` by the query), and `itemNameOf` is the catalog item-name lookup
(`""` for a missing item). -/
structure Env where
  ancestors : String → List String
  rulesFor : List String → List RuleRow
  eligibleItemsOf : String → List String
  slabsOf : String → List Slab
  itemNameOf : String → String

/-- `_is_promo_row`: a line is promotional iff its description starts with
"FREE ITEM" and contains the `PROMO_TAG` marker. -/
def is_promo_row (r : Row) : Bool :=
  startsWithB "FREE ITEM" r.description && containsB r.description PROMO_TAG

/-- The list comprehension inside `_remove_existing_promo_rows`. -/
def remove_promo_items (items : List Row) : List Row :=
  items.filter (fun r => !is_promo_row r)

/-- `_remove_existing_promo_rows`: rewrite `doc.items` keeping only
non-promotional rows. -/
def remove_existing_promo_rows (doc : Doc) : Doc :=
  { doc with items := remove_promo_items doc.items }

/-- `flt(getattr(row, "stock_qty", 0)) or flt(getattr(row, "qty", 0))`:
the stock quantity, falling back to the entered quantity when it is zero. -/
def row_qty (r : Row) : ℚ :=
  if r.stock_qty ≠ 0 then r.stock_qty else r.qty

/-- Python dict lookup `m.get(k)` on an insertion-ordered association list. -/
def assocGet {α : Type} : List (String × α) → String → Option α
  | [], _ => none
  | p :: rest, k => if p.1 = k then some p.2 else assocGet rest k

/-- Python dict update `m[k] = v`: in-place when the key exists, append
otherwise (preserving insertion order). -/
def assocSet {α : Type} : List (String × α) → String → α → List (String × α)
  | [], k, v => [(k, v)]
  | p :: rest, k, v => if p.1 = k then (k, v) :: rest else p :: assocSet rest k v

/-- Rational addition, spelled out through `mkRat` so that it is
kernel-computable (`Rat.add` is `@[irreducible]`); `qAdd_eq_add` below proves
it equal to `+`. -/
def qAdd (a b : ℚ) : ℚ :=
  mkRat (a.num * b.den + b.num * a.den) (a.den * b.den)

/-- The running state of `_compute_basket_qty`. -/
structure BasketAcc where
  basket_qty : ℚ
  item_qty_map : List (String × ℚ)
  best_row_by_item : List (String × Row)
deriving DecidableEq

/-- One iteration of the `for row in doc.items` loop of `_compute_basket_qty`.
Note the best-row replacement test compares the new row's effective quantity
against the stored row's raw `qty` field (`qty > flt(best_row_by_item[item_code].qty)`). -/
def basket_step (eligible_items : List String) (acc : BasketAcc) (row : Row) :
    BasketAcc :=
  if is_promo_row row then acc
  else if pyStrip row.item_code ∉ eligible_items then acc
  else if row_qty row ≤ 0 then acc
  else
    { basket_qty := qAdd acc.basket_qty (row_qty row)
      item_qty_map := assocSet acc.item_qty_map (pyStrip row.item_code)
        (qAdd ((assocGet acc.item_qty_map (pyStrip row.item_code)).getD 0) (row_qty row))
      best_row_by_item :=
        match assocGet acc.best_row_by_item (pyStrip row.item_code) with
        | none => assocSet acc.best_row_by_item (pyStrip row.item_code) row
        | some best =>
          if row_qty row > best.qty then
            assocSet acc.best_row_by_item (pyStrip row.item_code) row
          else acc.best_row_by_item }

/-- `_compute_basket_qty(doc, eligible_items)` over the document's lines. -/
def compute_basket_qty (items : List Row) (eligible_items : List String) :
    BasketAcc :=
  items.foldl (basket_step eligible_items) ⟨0, [], []⟩

/-- `_get_free_qty_for_slab`: first slab with
`flt(min_qty) <= basket_qty < flt(max_qty)` wins; no match gives `0`. -/
def get_free_qty_for_slab (basket_qty : ℚ) : List Slab → ℚ
  | [] => 0
  | s :: rest =>
    if flt s.min_qty ≤ basket_qty ∧ basket_qty < flt s.max_qty then flt s.free_qty
    else get_free_qty_for_slab basket_qty rest

/-- `max(item_qty_map, key=item_qty_map.get)`: the first key (in insertion
order) whose value is maximal; Python's `max` replaces the running maximum
only on a strictly greater value. -/
def max_key_by_qty : List (String × ℚ) → Option String
  | [] => none
  | p :: rest =>
    some ((rest.foldl (fun best q => if q.2 > best.2 then q else best) p).1)

/-- `_select_free_item(rule, item_qty_map)`. -/
def select_free_item (rule : Rule) (item_qty_map : List (String × ℚ)) :
    Option String :=
  if (if rule.free_item_policy = "" then "highest_qty" else rule.free_item_policy)
      = "fixed_item" then
    if pyStrip rule.fixed_free_item_code = "" then none
    else some (pyStrip rule.fixed_free_item_code)
  else if item_qty_map = [] then none
  else max_key_by_qty item_qty_map

/-- Python truthiness of an optional string: `None` and `""` are both falsy.
`apply_promotions` tests `if not free_item_code:` with this semantics. -/
def py_truthy_str (o : Option String) : Option String :=
  match o with
  | none => none
  | some s => if s = "" then none else some s

/-- `_find_any_eligible_row(doc, eligible_items)`: first non-promotional row
whose stripped item code is eligible. -/
def find_any_eligible_row (items : List Row) (eligible_items : List String) :
    Option Row :=
  items.find? (fun r => !is_promo_row r && decide (pyStrip r.item_code ∈ eligible_items))

/-- `_get_customer_group_ancestors_including_self`: the collaborator's
self-first chain, degenerating to `[customer_group]` when the group is unknown
or the ancestor query comes back empty. -/
def get_customer_group_ancestors_including_self (env : Env)
    (customer_group : String) : List String :=
  match env.ancestors customer_group with
  | [] => [customer_group]
  | l => l

/-- `specificity_index(rule_row)`: position of the rule's customer group in the
chain; the `except` branch turns a group missing from the chain into `999`. -/
def specificity_index (cg_path : List String) (r : RuleRow) : Nat :=
  if r.customer_group ∈ cg_path then cg_path.indexOf r.customer_group else 999

/-- The sort key `(-(r.priority or 0), specificity_index(r))`. -/
def sort_key (cg_path : List String) (r : RuleRow) : Int × Nat :=
  (-(r.priority.getD 0), specificity_index cg_path r)

/-- Lexicographic order on sort keys (ascending, as Python sorts tuples). -/
def key_le (k₁ k₂ : Int × Nat) : Prop :=
  k₁.1 < k₂.1 ∨ (k₁.1 = k₂.1 ∧ k₁.2 ≤ k₂.2)

instance (k₁ k₂ : Int × Nat) : Decidable (key_le k₁ k₂) := by
  unfold key_le; infer_instance

/-- The ordering `candidates.sort(key=...)` sorts by. -/
def rule_le (cg_path : List String) (r₁ r₂ : RuleRow) : Prop :=
  key_le (sort_key cg_path r₁) (sort_key cg_path r₂)

instance (cg_path : List String) (r₁ r₂ : RuleRow) :
    Decidable (rule_le cg_path r₁ r₂) := by
  unfold rule_le; infer_instance

/-- `candidates.sort(key=lambda r: (-(r.priority or 0), specificity_index(r)))`:
Python's sort is stable and ascending, modelled by the stable `insertionSort`. -/
def sort_candidates (cg_path : List String) (candidates : List RuleRow) :
    List RuleRow :=
  List.insertionSort (rule_le cg_path) candidates

/-- The company partition loop: `company_matched + company_blank`.  A rule with
a non-empty company is kept only when the document company is non-empty and
equal; a rule with an empty company is always kept (wildcard); everything else
is dropped. -/
def candidate_rules (company : String) (rules : List RuleRow) : List RuleRow :=
  rules.filter (fun r => decide (r.company ≠ "" ∧ company ≠ "" ∧ r.company = company))
    ++ rules.filter (fun r => decide (r.company = ""))

/-- `(getattr(doc, "customer_group", None) or "").strip()`. -/
def doc_customer_group (doc : Doc) : String := pyStrip doc.customer_group

/-- `(getattr(doc, "company", None) or "").strip()`. -/
def doc_company (doc : Doc) : String := pyStrip doc.company

/-- The ancestor chain `_get_matching_rule` computes for the document. -/
def cg_path_of (env : Env) (doc : Doc) : List String :=
  get_customer_group_ancestors_including_self env (doc_customer_group doc)

/-- The candidate list (`company_matched + company_blank`) of
`_get_matching_rule`. -/
def candidates_of (env : Env) (doc : Doc) : List RuleRow :=
  candidate_rules (doc_company doc) (env.rulesFor (cg_path_of env doc))

/-- The candidate list after `candidates.sort(...)`. -/
def sorted_candidates_of (env : Env) (doc : Doc) : List RuleRow :=
  sort_candidates (cg_path_of env doc) (candidates_of env doc)

/-- `chosen = candidates[0]` guarded by the early-return checks of
`_get_matching_rule`. -/
def chosen_rule_row (env : Env) (doc : Doc) : Option RuleRow :=
  if doc_customer_group doc = "" then none
  else if cg_path_of env doc = [] then none
  else if env.rulesFor (cg_path_of env doc) = [] then none
  else if candidates_of env doc = [] then none
  else (sorted_candidates_of env doc).head?

/-- The dictionary `_get_matching_rule` builds from the chosen row. -/
def hydrate_rule (env : Env) (r : RuleRow) : Rule :=
  { name := r.name
    company := r.company
    priority := r.priority.getD 0
    free_item_policy :=
      if r.free_item_policy = "" then "highest_qty" else r.free_item_policy
    fixed_free_item_code := r.fixed_free_item_code
    eligible_items := env.eligibleItemsOf r.name
    slabs := env.slabsOf r.name }

/-- `_get_matching_rule(doc)`. -/
def get_matching_rule (env : Env) (doc : Doc) : Option Rule :=
  (chosen_rule_row env doc).map (hydrate_rule env)

/-- The row `_add_free_row` appends: zero-rated, attributes copied from the
source row, description carrying the reserved marker
`f"FREE ITEM ({PROMO_TAG})"`. -/
def mk_free_row (env : Env) (doc : Doc) (source_row : Row) (item_code : String)
    (qty : ℚ) : Row :=
  { item_code := item_code
    item_name :=
      if env.itemNameOf item_code = "" then item_code else env.itemNameOf item_code
    delivery_date :=
      match source_row.delivery_date with
      | some d => some d
      | none => doc.delivery_date
    qty := qty
    rate := 0
    price_list_rate := 0
    amount := 0
    warehouse := source_row.warehouse
    uom := source_row.uom
    conversion_factor := source_row.conversion_factor
    stock_qty := 0
    description := "FREE ITEM (" ++ PROMO_TAG ++ ")" }

/-- `source_row = best_row_by_item.get(free_item_code) or
_find_any_eligible_row(doc, eligible_items)` — the fallback scans the already
stripped line list. -/
def pick_source_row (items2 : List Row) (acc : BasketAcc)
    (eligible_items : List String) (code : String) : Option Row :=
  match assocGet acc.best_row_by_item code with
  | some r => some r
  | none => find_any_eligible_row items2 eligible_items

/-- Result of one `apply_promotions` invocation: the (mutated) document, the
Python return value, and whether `_recalc` (`calculate_taxes_and_totals`) was
invoked. -/
structure ApplyResult where
  doc : Doc
  ret : Option Bool
  recalc : Bool
deriving DecidableEq

/-- The body of `apply_promotions` after the three early-return guards. -/
def apply_core (env : Env) (doc : Doc) : ApplyResult :=
  match get_matching_rule env doc with
  | none => ⟨remove_existing_promo_rows doc, none, false⟩
  | some rule =>
    if get_free_qty_for_slab (compute_basket_qty doc.items rule.eligible_items).basket_qty
        rule.slabs ≤ 0 then
      ⟨remove_existing_promo_rows doc, none, false⟩
    else
      match py_truthy_str (select_free_item rule
          (compute_basket_qty doc.items rule.eligible_items).item_qty_map) with
      | none => ⟨remove_existing_promo_rows doc, none, false⟩
      | some free_item_code =>
        match pick_source_row (remove_existing_promo_rows doc).items
            (compute_basket_qty doc.items rule.eligible_items)
            rule.eligible_items free_item_code with
        | none => ⟨remove_existing_promo_rows doc, none, false⟩
        | some source_row =>
          ⟨{ remove_existing_promo_rows doc with
              items := (remove_existing_promo_rows doc).items ++
                [mk_free_row env (remove_existing_promo_rows doc) source_row
                  free_item_code
                  (get_free_qty_for_slab
                    (compute_basket_qty doc.items rule.eligible_items).basket_qty
                    rule.slabs)] },
            none, true⟩

/-- `apply_promotions(doc)`: draft only, skip returns, skip empty line lists,
then resolve / aggregate / slab-evaluate / materialize. -/
def apply_promotions (env : Env) (doc : Doc) : ApplyResult :=
  if doc.docstatus ≠ 0 then ⟨doc, none, false⟩
  else if doc.is_return then ⟨doc, none, false⟩
  else if doc.items = [] then ⟨doc, none, false⟩
  else apply_core env doc

/-- The "configuration gap" outcomes of one invocation (no matching rule, no
matching slab / non-positive free quantity, no selectable free item, no
template line), as a decidable predicate over the code's own intermediate
values. -/
def config_gapB (env : Env) (doc : Doc) : Bool :=
  match get_matching_rule env doc with
  | none => true
  | some rule =>
    decide (get_free_qty_for_slab
        (compute_basket_qty doc.items rule.eligible_items).basket_qty
        rule.slabs ≤ 0) ||
      match py_truthy_str (select_free_item rule
          (compute_basket_qty doc.items rule.eligible_items).item_qty_map) with
      | none => true
      | some free_item_code =>
        (pick_source_row (remove_existing_promo_rows doc).items
          (compute_basket_qty doc.items rule.eligible_items)
          rule.eligible_items free_item_code).isNone

/-- The left-to-right best-line scan the aggregator performs for one item
code: starting from the first counted line, a stored candidate `b` is replaced
by a later line `r` exactly when `r`'s effective quantity strictly exceeds the
stored line's raw `qty` field (`row_qty r > b.qty`); ties and smaller values
keep the earlier line. -/
def best_scan_from : Option Row → List Row → Option Row
  | b, [] => b
  | none, r :: rest => best_scan_from (some r) rest
  | some b, r :: rest =>
    best_scan_from (some (if row_qty r > b.qty then r else b)) rest

/-- The lines of `items` that `_compute_basket_qty` counts for item `code`:
non-promotional, stripped item code equal to `code`, eligible, positive
effective quantity. -/
def counted_rows (items : List Row) (eligible_items : List String)
    (code : String) : List Row :=
  items.filter (fun r => !is_promo_row r && decide (pyStrip r.item_code = code)
    && decide (code ∈ eligible_items) && decide (0 < row_qty r))

/-! Concrete fixtures used by the counterexamples and witnesses below. -/

/-- An environment with no configured rules and empty collaborator data. -/
def env0 : Env :=
  { ancestors := fun _ => []
    rulesFor := fun _ => []
    eligibleItemsOf := fun _ => []
    slabsOf := fun _ => []
    itemNameOf := fun _ => "" }

/-- A promotional line (description carries the reserved marker). -/
def promoRow : Row := { item_code := "P", description := "FREE ITEM (BASKET_PROMO)" }

/-- A submitted (non-draft) document still holding a stale promotional line. -/
def docC10 : Doc := { docstatus := 1, items := [promoRow] }

/-- A draft document holding only a stale promotional line. -/
def docW6 : Doc := { docstatus := 0, customer_group := "G", items := [promoRow] }

/-- An ordinary non-promotional line. -/
def rowN9 : Row := { item_code := "N", description := "plain", qty := 2 }

/-- A draft document with one ordinary line and one stale promotional line. -/
def doc9 : Doc := { docstatus := 0, customer_group := "G", items := [rowN9, promoRow] }

/-- An eligible basket line for item `X`. -/
def rowX : Row := { item_code := "X", description := "abc", qty := 5, stock_qty := 0 }

/-- A wildcard-company rule on customer group `G`. -/
def ruleRowA : RuleRow :=
  { name := "R1", company := "", priority := some 1, customer_group := "G" }

/-- An environment in which `ruleRowA` applies with `X` eligible and a slab
awarding 3 free units on 1 ≤ qty < 100. -/
def envA : Env :=
  { ancestors := fun g => if g = "G" then ["G"] else []
    rulesFor := fun _ => [ruleRowA]
    eligibleItemsOf := fun _ => ["X"]
    slabsOf := fun _ => [{ min_qty := some 1, max_qty := some 100, free_qty := some 3 }]
    itemNameOf := fun _ => "" }

/-- A draft document buying 5 of `X`. -/
def docA : Doc :=
  { docstatus := 0, is_return := false, customer_group := "G", company := "",
    items := [rowX] }

/-- A wildcard-company rule with high priority. -/
def rBlankC2 : RuleRow :=
  { name := "RB", company := "", priority := some 10, customer_group := "G" }

/-- A company-matched rule with low priority. -/
def rMatchC2 : RuleRow :=
  { name := "RM", company := "C1", priority := some 1, customer_group := "G" }

/-- Environment returning both rules for group `G` (priority-descending, as the
database query orders them). -/
def envC2 : Env :=
  { ancestors := fun g => if g = "G" then ["G"] else []
    rulesFor := fun _ => [rBlankC2, rMatchC2]
    eligibleItemsOf := fun _ => []
    slabsOf := fun _ => []
    itemNameOf := fun _ => "" }

/-- A document for company `C1` in group `G`. -/
def docC2 : Doc := { customer_group := "G", company := "C1" }

/-- An ancestor chain 1001 groups long: 1000 copies of `B` followed by `A`. -/
def cgPathC8 : List String := List.replicate 1000 "B" ++ ["A"]

/-- A rule on group `A`, which sits at chain index 1000. -/
def ruleAC8 : RuleRow := { name := "RA", priority := some 5, customer_group := "A" }

/-- A same-priority rule on group `ZZZ`, which is not in the chain at all. -/
def ruleXC8 : RuleRow := { name := "RX", priority := some 5, customer_group := "ZZZ" }

/-- A slab [5, 10) awarding 1 free unit. -/
def slabW7 : Slab := { min_qty := some 5, max_qty := some 10, free_qty := some 1 }

/-- The next slab [10, 20) awarding 2 free units. -/
def slabW7' : Slab := { min_qty := some 10, max_qty := some 20, free_qty := some 2 }

/-- A line for `X` with large stock quantity but small entered quantity. -/
def r1C4 : Row := { item_code := "X", qty := 2, stock_qty := 10 }

/-- A later line for `X` with effective quantity 5. -/
def r2C4 : Row := { item_code := "X", qty := 5, stock_qty := 0 }

/-! Helper lemmas. -/

/-- `qAdd` is ordinary rational addition. -/
theorem qAdd_eq_add (a b : ℚ) : qAdd a b = a + b := by
  unfold qAdd
  rw [Rat.add_def']

theorem assocGet_assocSet_self {α : Type} (m : List (String × α)) (k : String)
    (v : α) : assocGet (assocSet m k v) k = some v := by
  induction m with
  | nil => simp [assocSet, assocGet]
  | cons p rest ih =>
    by_cases h : p.1 = k
    · simp [assocSet, h, assocGet]
    · simp [assocSet, h, assocGet, ih]

theorem assocGet_assocSet_ne {α : Type} (m : List (String × α)) (k k' : String)
    (v : α) (h : k' ≠ k) : assocGet (assocSet m k v) k' = assocGet m k' := by
  induction m with
  | nil => simp [assocSet, assocGet, Ne.symm h]
  | cons p rest ih =>
    by_cases hp : p.1 = k
    · have hpk : p.1 ≠ k' := by rw [hp]; exact Ne.symm h
      simp [assocSet, hp, assocGet, Ne.symm h, hpk]
    · by_cases hpk : p.1 = k'
      · simp [assocSet, hp, assocGet, hpk, h]
      · simp [assocSet, hp, assocGet, hpk, ih]

theorem remove_promo_cons_promo {r : Row} (l : List Row)
    (h : is_promo_row r = true) :
    remove_promo_items (r :: l) = remove_promo_items l := by
  simp [remove_promo_items, h]

theorem remove_promo_cons_keep {r : Row} (l : List Row)
    (h : is_promo_row r = false) :
    remove_promo_items (r :: l) = r :: remove_promo_items l := by
  simp [remove_promo_items, h]

theorem remove_promo_idem (l : List Row) :
    remove_promo_items (remove_promo_items l) = remove_promo_items l := by
  simp [remove_promo_items, List.filter_filter]

theorem remove_promo_append (l₁ l₂ : List Row) :
    remove_promo_items (l₁ ++ l₂) =
      remove_promo_items l₁ ++ remove_promo_items l₂ := by
  simp [remove_promo_items]

/-- The appended free row is itself recognised as promotional. -/
theorem is_promo_row_mk_free_row (env : Env) (doc : Doc) (src : Row)
    (code : String) (qty : ℚ) :
    is_promo_row (mk_free_row env doc src code qty) = true := rfl

theorem countP_remove_promo (l : List Row) :
    List.countP (fun r => is_promo_row r) (remove_promo_items l) = 0 := by
  rw [List.countP_eq_zero]
  intro r hr
  have := (List.mem_filter.mp hr).2
  simp_all [remove_promo_items]

theorem self_ne_append_singleton {α : Type} (l : List α) (x : α) :
    l ≠ l ++ [x] := by
  intro h
  have := congrArg List.length h
  simp at this

theorem basket_step_promo (e : List String) (acc : BasketAcc) (row : Row)
    (h : is_promo_row row = true) : basket_step e acc row = acc := by
  simp [basket_step, h]

theorem foldl_basket_remove_promo (e : List String) (l : List Row)
    (acc : BasketAcc) :
    List.foldl (basket_step e) acc (remove_promo_items l) =
      List.foldl (basket_step e) acc l := by
  induction l generalizing acc with
  | nil => rfl
  | cons r l ih =>
    by_cases h : is_promo_row r
    · rw [remove_promo_cons_promo l h, List.foldl_cons, basket_step_promo e acc r h, ih]
    · rw [remove_promo_cons_keep l (by simpa using h), List.foldl_cons,
        List.foldl_cons, ih]

theorem compute_basket_remove_promo (l : List Row) (e : List String) :
    compute_basket_qty (remove_promo_items l) e = compute_basket_qty l e :=
  foldl_basket_remove_promo e l _

theorem compute_basket_append_promo (l : List Row) (r : Row) (e : List String)
    (h : is_promo_row r = true) :
    compute_basket_qty (l ++ [r]) e = compute_basket_qty l e := by
  simp [compute_basket_qty, List.foldl_append, basket_step_promo _ _ _ h]

theorem find_any_remove_promo (l : List Row) (e : List String) :
    find_any_eligible_row (remove_promo_items l) e = find_any_eligible_row l e := by
  induction l with
  | nil => rfl
  | cons r l ih =>
    by_cases h : is_promo_row r
    · rw [remove_promo_cons_promo l h]
      rw [ih]
      unfold find_any_eligible_row
      rw [List.find?_cons_of_neg]
      simp [h]
    · rw [remove_promo_cons_keep l (by simpa using h)]
      unfold find_any_eligible_row at ih ⊢
      by_cases hm : pyStrip r.item_code ∈ e
      · rw [List.find?_cons_of_pos, List.find?_cons_of_pos] <;> simp [h, hm]
      · rw [List.find?_cons_of_neg, List.find?_cons_of_neg, ih] <;> simp [h, hm]

theorem find_any_append_promo (l : List Row) (r : Row) (e : List String)
    (h : is_promo_row r = true) :
    find_any_eligible_row (l ++ [r]) e = find_any_eligible_row l e := by
  unfold find_any_eligible_row
  rw [List.find?_append]
  have : List.find? (fun r => !is_promo_row r && decide (pyStrip r.item_code ∈ e)) [r] = none := by
    rw [List.find?_cons_of_neg] <;> simp [h]
  rw [this]
  simp

/-- Every branch of `apply_core` leaves the document's scalar fields untouched,
only rewriting `items`. -/
theorem apply_core_doc_eq (env : Env) (doc : Doc) :
    (apply_core env doc).doc =
      { doc with items := (apply_core env doc).doc.items } := by
  unfold apply_core
  cases get_matching_rule env doc with
  | none => rfl
  | some rule =>
    dsimp only
    split
    · rfl
    · split
      · rfl
      · split
        · rfl
        · rfl

/-- `apply_core` either strips the promotional lines and adds nothing, or
strips them and appends exactly one (promotional) free row. -/
theorem apply_core_items_cases (env : Env) (doc : Doc) :
    (apply_core env doc).doc.items = remove_promo_items doc.items ∨
      ∃ row, is_promo_row row = true ∧
        (apply_core env doc).doc.items = remove_promo_items doc.items ++ [row] := by
  unfold apply_core
  cases get_matching_rule env doc with
  | none => exact Or.inl rfl
  | some rule =>
    dsimp only
    split
    · exact Or.inl rfl
    · split
      · exact Or.inl rfl
      · split
        · exact Or.inl rfl
        · refine Or.inr ⟨_, ?_, rfl⟩
          rfl

/-- The Python return value of `apply_core` is always `None`. -/
theorem apply_core_ret (env : Env) (doc : Doc) : (apply_core env doc).ret = none := by
  unfold apply_core
  cases get_matching_rule env doc with
  | none => rfl
  | some rule =>
    dsimp only
    split
    · rfl
    · split
      · rfl
      · split
        · rfl
        · rfl

theorem apply_core_remove_promo (env : Env) (doc : Doc) :
    remove_promo_items (apply_core env doc).doc.items =
      remove_promo_items doc.items := by
  rcases apply_core_items_cases env doc with h | ⟨row, hp, h⟩
  · rw [h, remove_promo_idem]
  · rw [h, remove_promo_append, remove_promo_idem, remove_promo_cons_promo _ hp]
    simp [remove_promo_items]

/-- `apply_core` reads the document only through its scalar fields and the
promotion-free part of its line list. -/
theorem apply_core_congr (env : Env) (doc doc' : Doc)
    (h1 : doc'.docstatus = doc.docstatus) (h2 : doc'.is_return = doc.is_return)
    (h3 : doc'.customer_group = doc.customer_group)
    (h4 : doc'.company = doc.company)
    (h5 : doc'.delivery_date = doc.delivery_date)
    (h6 : remove_promo_items doc'.items = remove_promo_items doc.items) :
    apply_core env doc' = apply_core env doc := by
  obtain ⟨a, b, l, c, d, e⟩ := doc
  obtain ⟨a', b', l', c', d', e'⟩ := doc'
  simp only at h1 h2 h3 h4 h5 h6
  subst h1; subst h2; subst h3; subst h4; subst h5
  have hgm : get_matching_rule env ⟨a', b', l', c', d', e'⟩ =
      get_matching_rule env ⟨a', b', l, c', d', e'⟩ := rfl
  have hrm : remove_existing_promo_rows (⟨a', b', l', c', d', e'⟩ : Doc) =
      remove_existing_promo_rows (⟨a', b', l, c', d', e'⟩ : Doc) := by
    simp [remove_existing_promo_rows, h6]
  have hcb : ∀ e₂, compute_basket_qty l' e₂ = compute_basket_qty l e₂ := by
    intro e₂
    rw [← compute_basket_remove_promo l' e₂, h6, compute_basket_remove_promo]
  unfold apply_core
  rw [hgm]
  cases get_matching_rule env (⟨a', b', l, c', d', e'⟩ : Doc) with
  | none => rw [hrm]
  | some rule =>
    dsimp only
    rw [hrm, hcb]

/-! Ordering lemmas for the candidate sort. -/

theorem key_le_refl (k : Int × Nat) : key_le k k := Or.inr ⟨rfl, le_refl _⟩

theorem key_le_trans {k₁ k₂ k₃ : Int × Nat} (h1 : key_le k₁ k₂)
    (h2 : key_le k₂ k₃) : key_le k₁ k₃ := by
  rcases h1 with h1 | ⟨h1, h1'⟩ <;> rcases h2 with h2 | ⟨h2, h2'⟩
  · exact Or.inl (h1.trans h2)
  · exact Or.inl (h2 ▸ h1)
  · exact Or.inl (h1 ▸ h2)
  · exact Or.inr ⟨h1.trans h2, h1'.trans h2'⟩

theorem key_le_total (k₁ k₂ : Int × Nat) : key_le k₁ k₂ ∨ key_le k₂ k₁ := by
  unfold key_le
  rcases lt_trichotomy k₁.1 k₂.1 with h | h | h
  · exact Or.inl (Or.inl h)
  · rcases le_total k₁.2 k₂.2 with h2 | h2
    · exact Or.inl (Or.inr ⟨h, h2⟩)
    · exact Or.inr (Or.inr ⟨h.symm, h2⟩)
  · exact Or.inr (Or.inl h)

theorem rule_le_refl (p : List String) (r : RuleRow) : rule_le p r r :=
  key_le_refl _

theorem rule_le_trans (p : List String) {r₁ r₂ r₃ : RuleRow}
    (h1 : rule_le p r₁ r₂) (h2 : rule_le p r₂ r₃) : rule_le p r₁ r₃ :=
  key_le_trans h1 h2

theorem rule_le_total (p : List String) (r₁ r₂ : RuleRow) :
    rule_le p r₁ r₂ ∨ rule_le p r₂ r₁ :=
  key_le_total _ _

theorem sorted_sort_candidates (p : List String) (l : List RuleRow) :
    List.Sorted (rule_le p) (sort_candidates p l) := by
  haveI : IsTotal RuleRow (rule_le p) := ⟨rule_le_total p⟩
  haveI : IsTrans RuleRow (rule_le p) := ⟨fun _ _ _ => rule_le_trans p⟩
  exact List.sorted_insertionSort _ _

theorem perm_sort_candidates (p : List String) (l : List RuleRow) :
    List.Perm (sort_candidates p l) l :=
  List.perm_insertionSort _ _

/-- Membership in the filtered candidate list forces the company condition. -/
theorem mem_candidate_rules {company : String} {rules : List RuleRow}
    {r : RuleRow} (h : r ∈ candidate_rules company rules) :
    r.company = "" ∨ (company ≠ "" ∧ r.company = company) := by
  unfold candidate_rules at h
  rcases List.mem_append.mp h with h | h
  · have hc := (List.mem_filter.mp h).2
    simp only [decide_eq_true_eq] at hc
    exact Or.inr ⟨hc.2.1, hc.2.2⟩
  · have hc := (List.mem_filter.mp h).2
    simp only [decide_eq_true_eq] at hc
    exact Or.inl hc

/-- `apply_promotions` collapses to its early return on a non-draft document,
a return document, or an empty line list. -/
theorem apply_promotions_early (env : Env) (doc : Doc)
    (h : doc.docstatus ≠ 0 ∨ doc.is_return = true ∨ doc.items = []) :
    apply_promotions env doc = ⟨doc, none, false⟩ := by
  unfold apply_promotions
  rcases h with h | h | h
  · simp [h]
  · by_cases h1 : doc.docstatus ≠ 0 <;> simp [h1, h]
  · by_cases h1 : doc.docstatus ≠ 0
    · simp [h1]
    · by_cases h2 : doc.is_return <;> simp [h1, h2, h]

/-- On a draft, non-return document with lines, `apply_promotions` runs the
core pipeline. -/
theorem apply_promotions_core_eq (env : Env) (doc : Doc)
    (h1 : doc.docstatus = 0) (h2 : doc.is_return = false)
    (h3 : doc.items ≠ []) : apply_promotions env doc = apply_core env doc := by
  unfold apply_promotions
  simp [h1, h2, h3]

/-! Claim theorems. -/

/-- C1: the claim states that a slab whose `maxQty` is zero/absent is
unbounded above and matches whenever `minQty ≤ q`, so that with
`minQty = 20, maxQty = 0/absent, freeQty = 5` a total of 25 yields 5.  The
active code has no unbounded branch: `flt(max_qty)` is `0` and the test
`min_q <= basket_qty < max_q` fails for every non-negative total, so the
evaluator returns 0 — the slab can never fire.  (The commented-out legacy
version of `_get_free_qty_for_slab` in the same file explicitly implements
"0 or empty = infinity", evidencing the claim as the intent.) -/
theorem C1_zero_max_qty_slab_never_matches :
    get_free_qty_for_slab 25
        [{ min_qty := some 20, max_qty := some 0, free_qty := some 5 }] = 0 ∧
    get_free_qty_for_slab 25
        [{ min_qty := some 20, max_qty := none, free_qty := some 5 }] = 0 ∧
    flt (some 20) ≤ (25 : ℚ) := by decide

/-- C10: on a non-draft document (`docstatus ≠ 0`), a return document, or an
empty/absent line list, `apply_promotions` returns immediately and leaves the
document — including any stale promotional lines — entirely unchanged. -/
theorem C10_early_return_unchanged (env : Env) (doc : Doc)
    (h : doc.docstatus ≠ 0 ∨ doc.is_return = true ∨ doc.items = []) :
    apply_promotions env doc = ⟨doc, none, false⟩ :=
  apply_promotions_early env doc h

/-- C10 witness: a submitted document carrying a stale promotional line is
left untouched. -/
theorem C10_early_return_unchanged_witness :
    docC10.docstatus ≠ 0 ∧ apply_promotions env0 docC10 = ⟨docC10, none, false⟩ :=
  ⟨by decide, C10_early_return_unchanged env0 docC10 (Or.inl (by decide))⟩

/-- C7: a basket total exactly equal to a slab's non-zero `maxQty` does not
match that slab (intervals are half-open), and slab evaluation with that slab
present equals slab evaluation with it removed — the total falls to the next
covering slab, or to no slab (result 0) if none covers it. -/
theorem C7_max_qty_boundary_excluded (q : ℚ) (pre post : List Slab) (s : Slab)
    (_hmax : flt s.max_qty ≠ 0) (hq : q = flt s.max_qty) :
    ¬(flt s.min_qty ≤ q ∧ q < flt s.max_qty) ∧
    get_free_qty_for_slab q (pre ++ s :: post) =
      get_free_qty_for_slab q (pre ++ post) := by
  have hno : ¬(flt s.min_qty ≤ q ∧ q < flt s.max_qty) := by
    rintro ⟨-, hlt⟩
    rw [hq] at hlt
    exact lt_irrefl _ hlt
  refine ⟨hno, ?_⟩
  induction pre with
  | nil =>
    simp only [List.nil_append, get_free_qty_for_slab]
    rw [if_neg hno]
  | cons p pre ih =>
    simp only [List.cons_append, get_free_qty_for_slab]
    split
    · rfl
    · exact ih

/-- C7 witness: total 10 is excluded from the slab [5, 10) and picked up by
the next slab [10, 20), with or without the boundary slab present. -/
theorem C7_max_qty_boundary_excluded_witness :
    flt slabW7.max_qty ≠ 0 ∧ (10 : ℚ) = flt slabW7.max_qty ∧
    (¬(flt slabW7.min_qty ≤ (10 : ℚ) ∧ (10 : ℚ) < flt slabW7.max_qty) ∧
      get_free_qty_for_slab 10 ([] ++ slabW7 :: [slabW7']) =
        get_free_qty_for_slab 10 ([] ++ [slabW7'])) :=
  ⟨by decide, by decide,
    C7_max_qty_boundary_excluded 10 [] [slabW7'] slabW7 (by decide) (by decide)⟩

/-- C6: if the input line set holds at most one promotional line, the line set
`apply_promotions` leaves behind holds at most one promotional line: outside
the early returns every promotional line is removed before at most one new
free line is appended. -/
theorem C6_at_most_one_promo_row (env : Env) (doc : Doc)
    (h : List.countP (fun r => is_promo_row r) doc.items ≤ 1) :
    List.countP (fun r => is_promo_row r) (apply_promotions env doc).doc.items ≤ 1 := by
  by_cases h1 : doc.docstatus ≠ 0
  · rw [apply_promotions_early env doc (Or.inl h1)]; exact h
  by_cases h2 : doc.is_return
  · rw [apply_promotions_early env doc (Or.inr (Or.inl h2))]; exact h
  by_cases h3 : doc.items = []
  · rw [apply_promotions_early env doc (Or.inr (Or.inr h3))]; exact h
  rw [apply_promotions_core_eq env doc (not_not.mp h1) (by simpa using h2) h3]
  rcases apply_core_items_cases env doc with hc | ⟨row, hp, hc⟩
  · rw [hc, countP_remove_promo]
    exact Nat.zero_le 1
  · rw [hc, List.countP_append, countP_remove_promo]
    simp [hp]

/-- C6 witness: a draft document with exactly one stale promotional line and
no applicable rule ends with zero promotional lines. -/
theorem C6_at_most_one_promo_row_witness :
    List.countP (fun r => is_promo_row r) docW6.items ≤ 1 ∧
    List.countP (fun r => is_promo_row r) (apply_promotions env0 docW6).doc.items ≤ 1 :=
  ⟨by decide, C6_at_most_one_promo_row env0 docW6 (by decide)⟩

set_option maxRecDepth 100000 in
/-- C8 counterexample: the claim additionally asserts that a candidate whose
group is not in the ancestor chain sorts last.  The code assigns such a
candidate the sentinel specificity 999, so with a chain 1001 groups long an
in-chain rule at position 1000 sorts *after* a same-priority rule whose group
is not in the chain at all. -/
theorem C8_not_in_chain_sorts_before_in_chain :
    ruleXC8.customer_group ∉ cgPathC8 ∧ ruleAC8.customer_group ∈ cgPathC8 ∧
    ruleAC8.priority = ruleXC8.priority ∧
    specificity_index cgPathC8 ruleXC8 = 999 ∧
    specificity_index cgPathC8 ruleAC8 = 1000 ∧
    sort_candidates cgPathC8 [ruleAC8, ruleXC8] = [ruleXC8, ruleAC8] := by decide

/-- C8 (amended): within the filtered candidates the final ordering is the
stable ascending sort by the key (priority descending, specificity ascending),
where a candidate whose group is missing from the chain receives sentinel
specificity 999: the sorted list is a permutation of the candidates in which
every earlier candidate's key is `≤` every later one's — so a higher-priority
candidate always precedes a lower-priority one, and at equal priority a
candidate with smaller chain index precedes one with a larger index; a
missing-group candidate sorts after same-priority in-chain candidates only
when their chain positions are below 999. -/
theorem C8_sort_by_priority_then_specificity (cg_path : List String)
    (l : List RuleRow) :
    List.Sorted (rule_le cg_path) (sort_candidates cg_path l) ∧
    List.Perm (sort_candidates cg_path l) l :=
  ⟨sorted_sort_candidates cg_path l, perm_sort_candidates cg_path l⟩

/-- C2 counterexample: for a document with non-empty company, a wildcard
(blank-company) candidate with higher priority is ranked ahead of — and chosen
over — a company-matched candidate: the sort by priority/specificity destroys
the matched-before-wildcard concatenation order. -/
theorem C2_wildcard_outranks_company_match :
    doc_company docC2 ≠ "" ∧ rMatchC2.company = doc_company docC2 ∧
    rBlankC2.company = "" ∧ rMatchC2 ∈ candidates_of envC2 docC2 ∧
    sorted_candidates_of envC2 docC2 = [rBlankC2, rMatchC2] ∧
    chosen_rule_row envC2 docC2 = some rBlankC2 := by decide

/-- C2 (amended): rules with a non-empty company different from the
document's are excluded entirely (every candidate is wildcard or
company-matched), and the chosen rule is a candidate with minimal
(priority-descending, specificity-ascending) key among all candidates —
company match is not a group preference, it survives only as the stable-sort
tiebreak at equal keys. -/
theorem C2_chosen_rule_qualifies_and_minimal (env : Env) (doc : Doc)
    (r : RuleRow) (h : chosen_rule_row env doc = some r) :
    (r.company = "" ∨ (doc_company doc ≠ "" ∧ r.company = doc_company doc)) ∧
    (∀ c ∈ candidates_of env doc,
      c.company = "" ∨ (doc_company doc ≠ "" ∧ c.company = doc_company doc)) ∧
    ∀ c ∈ candidates_of env doc, rule_le (cg_path_of env doc) r c := by
  unfold chosen_rule_row at h
  split_ifs at h
  have hperm : List.Perm (sorted_candidates_of env doc) (candidates_of env doc) :=
    perm_sort_candidates _ _
  have hsorted : List.Sorted (rule_le (cg_path_of env doc))
      (sorted_candidates_of env doc) := sorted_sort_candidates _ _
  cases hs : sorted_candidates_of env doc with
  | nil => rw [hs] at h; exact Option.noConfusion h
  | cons a t =>
    rw [hs] at h hperm hsorted
    have har : a = r := by simpa using h
    subst har
    have hmemCand : a ∈ candidates_of env doc :=
      hperm.mem_iff.mp (List.mem_cons_self a t)
    refine ⟨?_, ?_, ?_⟩
    · unfold candidates_of at hmemCand
      exact mem_candidate_rules hmemCand
    · intro c hc
      unfold candidates_of at hc
      exact mem_candidate_rules hc
    · intro c hc
      rcases List.mem_cons.mp (hperm.mem_iff.mpr hc) with hca | hct
      · rw [hca]
        exact rule_le_refl _ a
      · exact (List.sorted_cons.mp hsorted).1 c hct

/-- C2 witness: in the concrete two-rule environment the chosen rule is the
wildcard one, and it satisfies the amended properties. -/
theorem C2_chosen_rule_qualifies_and_minimal_witness :
    chosen_rule_row envC2 docC2 = some rBlankC2 ∧
    ((rBlankC2.company = "" ∨
        (doc_company docC2 ≠ "" ∧ rBlankC2.company = doc_company docC2)) ∧
      (∀ c ∈ candidates_of envC2 docC2,
        c.company = "" ∨ (doc_company docC2 ≠ "" ∧ c.company = doc_company docC2)) ∧
      ∀ c ∈ candidates_of envC2 docC2, rule_le (cg_path_of envC2 docC2) rBlankC2 c) :=
  ⟨by decide, C2_chosen_rule_qualifies_and_minimal envC2 docC2 rBlankC2 (by decide)⟩

/-- When the core pipeline invoked `_recalc`, it was because a free row was
appended after stripping. -/
theorem apply_core_recalc_true (env : Env) (doc : Doc)
    (h : (apply_core env doc).recalc = true) :
    ∃ row, is_promo_row row = true ∧
      (apply_core env doc).doc.items = remove_promo_items doc.items ++ [row] := by
  unfold apply_core at h ⊢
  cases hm : get_matching_rule env doc with
  | none => rw [hm] at h; simp at h
  | some rule =>
    rw [hm] at h
    dsimp only at h ⊢
    by_cases hf : get_free_qty_for_slab
        (compute_basket_qty doc.items rule.eligible_items).basket_qty rule.slabs ≤ 0
    · rw [if_pos hf] at h; simp at h
    · rw [if_neg hf] at h ⊢
      cases hsel : py_truthy_str (select_free_item rule
          (compute_basket_qty doc.items rule.eligible_items).item_qty_map) with
      | none => rw [hsel] at h; simp at h
      | some code =>
        rw [hsel] at h
        dsimp only at h ⊢
        cases hsrc : pick_source_row (remove_existing_promo_rows doc).items
            (compute_basket_qty doc.items rule.eligible_items)
            rule.eligible_items code with
        | none => rw [hsrc] at h; simp at h
        | some src =>
          refine ⟨_, ?_, rfl⟩
          rfl

/-- When the core pipeline did not invoke `_recalc`, the line set is exactly
the stripped original. -/
theorem apply_core_recalc_false (env : Env) (doc : Doc)
    (h : (apply_core env doc).recalc = false) :
    (apply_core env doc).doc.items = remove_promo_items doc.items := by
  unfold apply_core at h ⊢
  cases hm : get_matching_rule env doc with
  | none => rfl
  | some rule =>
    rw [hm] at h
    dsimp only at h ⊢
    by_cases hf : get_free_qty_for_slab
        (compute_basket_qty doc.items rule.eligible_items).basket_qty rule.slabs ≤ 0
    · rw [if_pos hf]; rfl
    · rw [if_neg hf] at h ⊢
      cases hsel : py_truthy_str (select_free_item rule
          (compute_basket_qty doc.items rule.eligible_items).item_qty_map) with
      | none => rfl
      | some code =>
        rw [hsel] at h
        dsimp only at h ⊢
        cases hsrc : pick_source_row (remove_existing_promo_rows doc).items
            (compute_basket_qty doc.items rule.eligible_items)
            rule.eligible_items code with
        | none => rfl
        | some src => rw [hsrc] at h; simp at h

/-- C3 counterexample: on a concrete draft basket a free line *is* added, yet
`apply_promotions` returns `None` — not a boolean at all, in particular not
`true`. -/
theorem C3_free_line_added_but_returns_none :
    (apply_promotions envA docA).doc.items ≠ docA.items ∧
    (apply_promotions envA docA).doc.items =
      docA.items ++ [mk_free_row envA (remove_existing_promo_rows docA) rowX "X" 3] ∧
    (apply_promotions envA docA).ret = none := by decide

/-- C3 (amended): `apply_promotions` always returns `None`; the caller learns
nothing from the return value.  Downstream recalculation is instead invoked
internally, exactly when the invocation appends a free line (and not when it
merely strips stale promotional lines). -/
theorem C3_returns_none_recalc_iff_line_added (env : Env) (doc : Doc) :
    (apply_promotions env doc).ret = none ∧
    ((apply_promotions env doc).recalc = true ↔
      doc.docstatus = 0 ∧ doc.is_return = false ∧ doc.items ≠ [] ∧
      ∃ row, is_promo_row row = true ∧
        (apply_promotions env doc).doc.items = remove_promo_items doc.items ++ [row]) := by
  by_cases h1 : doc.docstatus ≠ 0
  · rw [apply_promotions_early env doc (Or.inl h1)]
    exact ⟨rfl, by simp [h1]⟩
  by_cases h2 : doc.is_return
  · rw [apply_promotions_early env doc (Or.inr (Or.inl h2))]
    exact ⟨rfl, by simp [h2]⟩
  by_cases h3 : doc.items = []
  · rw [apply_promotions_early env doc (Or.inr (Or.inr h3))]
    exact ⟨rfl, by simp [h3]⟩
  have h1' : doc.docstatus = 0 := not_not.mp h1
  have h2' : doc.is_return = false := by simpa using h2
  rw [apply_promotions_core_eq env doc h1' h2' h3]
  refine ⟨apply_core_ret env doc, ?_, ?_⟩
  · intro hrec
    exact ⟨h1', h2', h3, apply_core_recalc_true env doc hrec⟩
  · rintro ⟨-, -, -, row, -, hitems⟩
    by_contra hrec
    have hrec' : (apply_core env doc).recalc = false := by simpa using hrec
    rw [apply_core_recalc_false env doc hrec'] at hitems
    exact self_ne_append_singleton _ row hitems

/-- C9: on a draft, non-return document with lines, every configuration-gap
outcome (no matching rule, no matching slab / free quantity ≤ 0, no selectable
free item, no template line) makes `apply_promotions` strip every promotional
line, add nothing, and return normally (`None`, no recalculation): the
resulting line set is exactly the stripped original and contains no
promotional line.  (The model is a total function, so no exception can be
raised on these paths.) -/
theorem C9_config_gap_strips_promo (env : Env) (doc : Doc)
    (h1 : doc.docstatus = 0) (h2 : doc.is_return = false)
    (h3 : doc.items ≠ []) (hgap : config_gapB env doc = true) :
    (apply_promotions env doc).doc.items = remove_promo_items doc.items ∧
    List.countP (fun r => is_promo_row r) (apply_promotions env doc).doc.items = 0 ∧
    (apply_promotions env doc).ret = none ∧
    (apply_promotions env doc).recalc = false := by
  rw [apply_promotions_core_eq env doc h1 h2 h3]
  have hrecalc : (apply_core env doc).recalc = false := by
    unfold config_gapB at hgap
    unfold apply_core
    cases hm : get_matching_rule env doc with
    | none => rfl
    | some rule =>
      rw [hm] at hgap
      dsimp only at hgap ⊢
      by_cases hf : get_free_qty_for_slab
          (compute_basket_qty doc.items rule.eligible_items).basket_qty rule.slabs ≤ 0
      · rw [if_pos hf]
      · rw [if_neg hf]
        rw [decide_eq_false hf, Bool.false_or] at hgap
        cases hsel : py_truthy_str (select_free_item rule
            (compute_basket_qty doc.items rule.eligible_items).item_qty_map) with
        | none => rfl
        | some code =>
          rw [hsel] at hgap
          dsimp only at hgap ⊢
          have hnone : pick_source_row (remove_existing_promo_rows doc).items
              (compute_basket_qty doc.items rule.eligible_items)
              rule.eligible_items code = none :=
            Option.isNone_iff_eq_none.mp hgap
          rw [hnone]
  have hitems := apply_core_recalc_false env doc hrecalc
  exact ⟨hitems, by rw [hitems]; exact countP_remove_promo _,
    apply_core_ret env doc, hrecalc⟩

/-- C9 witness: a draft document with an ordinary line and a stale promotional
line, in an environment with no rules (a configuration gap), ends with exactly
the stripped line list. -/
theorem C9_config_gap_strips_promo_witness :
    doc9.docstatus = 0 ∧ doc9.is_return = false ∧ doc9.items ≠ [] ∧
    config_gapB env0 doc9 = true ∧
    ((apply_promotions env0 doc9).doc.items = remove_promo_items doc9.items ∧
      List.countP (fun r => is_promo_row r) (apply_promotions env0 doc9).doc.items = 0 ∧
      (apply_promotions env0 doc9).ret = none ∧
      (apply_promotions env0 doc9).recalc = false) :=
  ⟨rfl, rfl, by decide, by decide,
    C9_config_gap_strips_promo env0 doc9 rfl rfl (by decide) (by decide)⟩

/-- C5: `apply_promotions` is idempotent — with fixed collaborator responses,
a second invocation on the document produced by the first leaves the line set
identical to what the first produced. -/
theorem C5_apply_promotions_idempotent (env : Env) (doc : Doc) :
    (apply_promotions env (apply_promotions env doc).doc).doc.items =
      (apply_promotions env doc).doc.items := by
  by_cases h1 : doc.docstatus ≠ 0
  · simp only [apply_promotions_early env doc (Or.inl h1)]
  by_cases h2 : doc.is_return
  · simp only [apply_promotions_early env doc (Or.inr (Or.inl h2))]
  by_cases h3 : doc.items = []
  · simp only [apply_promotions_early env doc (Or.inr (Or.inr h3))]
  have h1' : doc.docstatus = 0 := not_not.mp h1
  have h2' : doc.is_return = false := by simpa using h2
  rw [apply_promotions_core_eq env doc h1' h2' h3]
  by_cases h5 : (apply_core env doc).doc.items = []
  · rw [apply_promotions_early env ((apply_core env doc).doc) (Or.inr (Or.inr h5))]
  · have e1 : (apply_core env doc).doc.docstatus = 0 := by
      rw [apply_core_doc_eq]; exact h1'
    have e2 : (apply_core env doc).doc.is_return = false := by
      rw [apply_core_doc_eq]; exact h2'
    rw [apply_promotions_core_eq env ((apply_core env doc).doc) e1 e2 h5]
    have hcongr := apply_core_congr env doc ((apply_core env doc).doc)
      (by rw [apply_core_doc_eq]) (by rw [apply_core_doc_eq])
      (by rw [apply_core_doc_eq]) (by rw [apply_core_doc_eq])
      (by rw [apply_core_doc_eq]) (apply_core_remove_promo env doc)
    rw [hcongr]

theorem best_scan_from_nil (b : Option Row) : best_scan_from b [] = b := by
  cases b <;> rfl

theorem best_scan_from_cons_none (r : Row) (rest : List Row) :
    best_scan_from none (r :: rest) = best_scan_from (some r) rest := rfl

theorem best_scan_from_cons_some (b r : Row) (rest : List Row) :
    best_scan_from (some b) (r :: rest) =
      best_scan_from (some (if row_qty r > b.qty then r else b)) rest := rfl

/-- The aggregator's best-row entry for one item code equals the left-to-right
scan of exactly that item's counted rows, threaded through the fold. -/
theorem foldl_best_row (e : List String) (code : String) (l : List Row) :
    ∀ acc : BasketAcc,
      assocGet (List.foldl (basket_step e) acc l).best_row_by_item code =
        best_scan_from (assocGet acc.best_row_by_item code)
          (counted_rows l e code) := by
  induction l with
  | nil =>
    intro acc
    rw [show counted_rows [] e code = [] from rfl, best_scan_from_nil]
    rfl
  | cons r l ih =>
    intro acc
    rw [List.foldl_cons]
    by_cases hp : is_promo_row r
    · rw [basket_step_promo e acc r hp, ih]
      have : counted_rows (r :: l) e code = counted_rows l e code := by
        unfold counted_rows
        rw [List.filter_cons_of_neg]
        simp [hp]
      rw [this]
    · have hp' : is_promo_row r = false := by simpa using hp
      by_cases hm : pyStrip r.item_code ∈ e
      · by_cases hq : row_qty r ≤ 0
        · have hstep : basket_step e acc r = acc := by
            unfold basket_step
            rw [if_neg hp, if_neg (not_not_intro hm), if_pos hq]
          rw [hstep, ih]
          have : counted_rows (r :: l) e code = counted_rows l e code := by
            unfold counted_rows
            rw [List.filter_cons_of_neg]
            simp [not_lt.mpr hq]
          rw [this]
        · have hstep : basket_step e acc r =
              { basket_qty := qAdd acc.basket_qty (row_qty r)
                item_qty_map := assocSet acc.item_qty_map (pyStrip r.item_code)
                  (qAdd ((assocGet acc.item_qty_map (pyStrip r.item_code)).getD 0)
                    (row_qty r))
                best_row_by_item :=
                  match assocGet acc.best_row_by_item (pyStrip r.item_code) with
                  | none => assocSet acc.best_row_by_item (pyStrip r.item_code) r
                  | some best =>
                    if row_qty r > best.qty then
                      assocSet acc.best_row_by_item (pyStrip r.item_code) r
                    else acc.best_row_by_item } := by
            unfold basket_step
            rw [if_neg hp, if_neg (not_not_intro hm), if_neg hq]
          rw [hstep]
          by_cases hcode : pyStrip r.item_code = code
          · have hm' : code ∈ e := hcode ▸ hm
            have hcount : counted_rows (r :: l) e code = r :: counted_rows l e code := by
              unfold counted_rows
              rw [List.filter_cons_of_pos]
              simp [hp', hcode, hm', not_le.mp hq]
            rw [hcount, hcode]
            cases hbg : assocGet acc.best_row_by_item code with
            | none =>
              dsimp only
              rw [ih, assocGet_assocSet_self, best_scan_from_cons_none]
            | some b =>
              dsimp only
              by_cases hgt : row_qty r > b.qty
              · rw [if_pos hgt, ih, assocGet_assocSet_self,
                  best_scan_from_cons_some, if_pos hgt]
              · rw [if_neg hgt, ih, hbg, best_scan_from_cons_some, if_neg hgt]
          · have hcount : counted_rows (r :: l) e code = counted_rows l e code := by
              unfold counted_rows
              rw [List.filter_cons_of_neg]
              simp [hcode]
            have hne : code ≠ pyStrip r.item_code := fun hh => hcode hh.symm
            rw [hcount]
            cases hbg : assocGet acc.best_row_by_item (pyStrip r.item_code) with
            | none =>
              dsimp only
              rw [ih, assocGet_assocSet_ne _ _ _ _ hne]
            | some b =>
              dsimp only
              by_cases hgt : row_qty r > b.qty
              · rw [if_pos hgt, ih, assocGet_assocSet_ne _ _ _ _ hne]
              · rw [if_neg hgt, ih]
      · have hstep : basket_step e acc r = acc := by
          unfold basket_step
          rw [if_neg hp, if_pos hm]
        rw [hstep, ih]
        have : counted_rows (r :: l) e code = counted_rows l e code := by
          unfold counted_rows
          rw [List.filter_cons_of_neg]
          by_cases hcode : pyStrip r.item_code = code
          · rw [hcode] at hm
            simp [hm]
          · simp [hcode]
        rw [this]

/-- C4 counterexample: with two counted lines for item `X` — the first with
effective (stock) quantity 10 but raw `qty` 2, the second with effective
quantity 5 — the second line displaces the first, because the code compares
the new line's effective quantity against the stored line's raw `qty` field.
The stored best line is therefore *not* the line contributing the largest
single quantity, and it displaced a line it does not strictly exceed. -/
theorem C4_best_row_not_max_qty :
    counted_rows [r1C4, r2C4] ["X"] "X" = [r1C4, r2C4] ∧
    assocGet (compute_basket_qty [r1C4, r2C4] ["X"]).best_row_by_item "X" =
      some r2C4 ∧
    row_qty r1C4 > row_qty r2C4 := by decide

/-- C4 (amended): for every line list and eligible set, `bestLineByItem` maps
each item code to the result of scanning that item's counted lines in document
order, where the stored candidate is replaced exactly when a later line's
effective quantity (stock quantity with fallback to entered quantity) strictly
exceeds the stored line's raw entered-quantity field — not its effective
quantity; ties and smaller values keep the earlier line. -/
theorem C4_best_row_by_item_scan (items : List Row)
    (eligible_items : List String) (code : String) :
    assocGet (compute_basket_qty items eligible_items).best_row_by_item code =
      best_scan_from none (counted_rows items eligible_items code) :=
  foldl_best_row eligible_items code items ⟨0, [], []⟩

end BasketPromo
